import Mathlib

/-!
Shallow embedding of the go-rajchain trie-database surface exercised by the
specification: the `StateSet` value type (`triedb/states.go`), the backend
construction and shutdown pipeline (`eth/backend.go`), the snake-to-camel
helper (`tracetest`), and a spec-level model of the path-scheme layer tree.

Machine conventions: Go byte slices become `List Nat`; `common.Hash` and
`common.Address` keys become `Nat`; Go maps become association lists
(`List (key × value)`), which preserve the operations the claims mention
(emptiness, the set of entries); Go `nil` pointers become `Option.none`.
-/

set_option autoImplicit false

namespace GoRajchain

/-- Byte strings (`[]byte`). -/
abbrev Bytes := List Nat

/-- `common.Hash`, used as an account or slot key. -/
abbrev Hash := Nat

/-- `common.Address`. -/
abbrev Address := Nat

/-- `triedb.StateSet` (src/triedb/states.go): a collection of mutated states
during a state transition, with exactly four mappings. -/
structure StateSet where
  Accounts : List (Hash × Bytes)
  AccountsOrigin : List (Address × Bytes)
  Storages : List (Hash × List (Hash × Bytes))
  StoragesOrigin : List (Address × List (Hash × Bytes))
  deriving DecidableEq, Repr

/-- `triedb.NewStateSet` (src/triedb/states.go): initializes an empty state
set; all four maps are allocated empty by `make`. -/
def NewStateSet : StateSet :=
  { Accounts := []
    AccountsOrigin := []
    Storages := []
    StoragesOrigin := [] }

/-- `pathdb.StateSetWithOrigin`: the state set consumed by the path database.
Modelled from the spec: the pathdb package is not under src/; the call site in
`internal` passes exactly the account-origin and storage-origin maps, so the
model records exactly those two. -/
structure StateSetWithOrigin where
  accountOrigin : List (Address × Bytes)
  storageOrigin : List (Address × List (Hash × Bytes))
  deriving DecidableEq, Repr

/-- `pathdb.NewStateSetWithOrigin`. Modelled from the spec: constructs the
internal state set from the two origin maps handed over at commit time. -/
def NewStateSetWithOrigin (accountOrigin : List (Address × Bytes))
    (storageOrigin : List (Address × List (Hash × Bytes))) : StateSetWithOrigin :=
  { accountOrigin := accountOrigin, storageOrigin := storageOrigin }

/-- `(*StateSet).internal` (src/triedb/states.go): returns a state set for
path-database internal usage; the nil receiver (possible in tests) maps to
nil, otherwise only the origin maps are passed on. -/
def internal : Option StateSet → Option StateSetWithOrigin
  | none => none
  | some set => some (NewStateSetWithOrigin set.AccountsOrigin set.StoragesOrigin)

/-- The distinct teardown steps taken by `(*rajchain).Stop`
(src/eth/backend.go lines 404-423), in the order the method can perform
them. -/
inductive StopEvent where
  | discmixClose
  | handlerStop
  | bloomIndexerClose
  | closeBloomHandler
  | txPoolClose
  | blockchainStop
  | engineClose
  | shutdownTrackerStop
  | chainDbClose
  | eventMuxStop
  deriving DecidableEq, Repr

/-- `(*rajchain).Stop` (src/eth/backend.go): the straight-line sequence of
teardown calls, transcribed top to bottom. -/
def StopSequence : List StopEvent :=
  [ .discmixClose
  , .handlerStop
  , .bloomIndexerClose
  , .closeBloomHandler
  , .txPoolClose
  , .blockchainStop
  , .engineClose
  , .shutdownTrackerStop
  , .chainDbClose
  , .eventMuxStop ]

/-- State storage schemes, `rawdb.HashScheme` and `rawdb.PathScheme`. -/
inductive Scheme where
  | hash
  | path
  deriving DecidableEq, Repr, Inhabited

/-- Errors `New` (src/eth/backend.go) can return in the modelled pipeline. -/
inductive NewError where
  | invalidSyncMode
  | schemeConflict
  | versionTooNew
  deriving DecidableEq, Repr

/-- `rawdb.ParseStateScheme`. Modelled from the spec: the rawdb package is
not under src/. Construction selects hash-scheme or path-scheme exclusively;
an explicitly requested scheme that conflicts with the scheme already
persisted on the store is rejected with a configuration error, otherwise the
request, the persisted scheme, or the hash-scheme default is selected.
`none` encodes an empty request and an unmarked store. -/
def ParseStateScheme (provided persisted : Option Scheme) : Except NewError Scheme :=
  match persisted, provided with
  | none, none => .ok .hash
  | none, some p => .ok p
  | some s, none => .ok s
  | some s, some p => if p = s then .ok p else .error .schemeConflict

/-- The slice of `ethconfig.Config` that the modelled pipeline of `New`
reads or writes. `SyncModeValid` abstracts `config.SyncMode.IsValid()`;
`StateScheme = none` encodes the empty string; cache sizes are megabyte
counts, `TrieTimeout` an abstract duration. -/
structure Config where
  SyncModeValid : Bool
  NoPruning : Bool
  NoPrefetch : Bool
  TrieCleanCache : Nat
  TrieDirtyCache : Nat
  TrieTimeout : Nat
  SnapshotCache : Nat
  StateHistory : Nat
  StateScheme : Option Scheme
  SkipBcVersionCheck : Bool
  Preimages : Bool
  deriving DecidableEq, Repr, Inhabited

/-- The on-disk facts `New` consults: the state-scheme marker the store
already carries (read inside `rawdb.ParseStateScheme`) and the persisted
blockchain database version (`rawdb.ReadDatabaseVersion`). -/
structure Store where
  persistedScheme : Option Scheme
  databaseVersion : Option Nat
  deriving DecidableEq, Repr, Inhabited

/-- The cache sanitization at the top of `New` (src/eth/backend.go lines
114-122): with pruning disabled and a positive dirty cache, the dirty budget
is folded into the clean cache (3/5) and snapshot cache (2/5) when snapshots
are enabled, or wholly into the clean cache otherwise, and the dirty cache is
zeroed. -/
def sanitizeCaches (config : Config) : Config :=
  if config.NoPruning ∧ 0 < config.TrieDirtyCache then
    if 0 < config.SnapshotCache then
      { config with
          TrieCleanCache := config.TrieCleanCache + config.TrieDirtyCache * 3 / 5
          SnapshotCache := config.SnapshotCache + config.TrieDirtyCache * 2 / 5
          TrieDirtyCache := 0 }
    else
      { config with
          TrieCleanCache := config.TrieCleanCache + config.TrieDirtyCache
          TrieDirtyCache := 0 }
  else config

/-- `core.CacheConfig` as assembled by `New` (src/eth/backend.go lines
189-199). -/
structure CacheConfig where
  TrieCleanLimit : Nat
  TrieCleanNoPrefetch : Bool
  TrieDirtyLimit : Nat
  TrieDirtyDisabled : Bool
  TrieTimeLimit : Nat
  SnapshotLimit : Nat
  Preimages : Bool
  StateHistory : Nat
  StateScheme : Scheme
  deriving DecidableEq, Repr, Inhabited

/-- The externally visible steps of `New` (src/eth/backend.go), in source
order, used to state ordering properties of the construction pipeline. -/
inductive NewEvent where
  | openDatabase
  | parseStateScheme
  | recoverPruning
  | loadChainConfig
  | createConsensusEngine
  | readDatabaseVersion
  | writeDatabaseVersion
  | newBlockChain
  | markStartup
  deriving DecidableEq, BEq, Repr, Inhabited

/-- What a successful run of `New` produced: the resolved scheme, whether
offline-pruning recovery was attempted, whether the stored database version
was upgraded, the assembled `CacheConfig`, the post-sanitization config, and
the ordered trace of steps taken. -/
structure NewResult where
  scheme : Scheme
  recoverPruningCalled : Bool
  versionWritten : Bool
  cacheConfig : CacheConfig
  finalConfig : Config
  events : List NewEvent
  deriving DecidableEq, Repr, Inhabited

/-- `New` (src/eth/backend.go lines 105-277), restricted to the steps the
claims concern: sync-mode validation, cache sanitization, scheme resolution,
hash-scheme pruning recovery (whose own error is only logged), the database
version check against `supportedVersion` (`core.BlockChainVersion`, declared
outside src/ and therefore a parameter), and the `CacheConfig` assembly.
Steps with no bearing on these outputs — miner gas-price sanitization (which
touches only `Miner.GasPrice`), tracer setup, chain-config overrides, and the
assembly of pools, handler, miner and RPC — are abstracted as succeeding, as
is the database open (the `Store` argument stands for the opened store). -/
def New (supportedVersion : Nat) (config : Config) (store : Store) :
    Except NewError NewResult :=
  if ¬ config.SyncModeValid then .error .invalidSyncMode else
  let config := sanitizeCaches config
  match ParseStateScheme config.StateScheme store.persistedScheme with
  | .error e => .error e
  | .ok scheme =>
    let recoverPruningCalled := decide (scheme = Scheme.hash)
    let bcVersion := store.databaseVersion
    if !config.SkipBcVersionCheck && bcVersion.any (fun v => supportedVersion < v) then
      .error .versionTooNew
    else
      let versionWritten := !config.SkipBcVersionCheck &&
        (bcVersion.isNone || bcVersion.any (fun v => v < supportedVersion))
      let cacheConfig : CacheConfig :=
        { TrieCleanLimit := config.TrieCleanCache
          TrieCleanNoPrefetch := config.NoPrefetch
          TrieDirtyLimit := config.TrieDirtyCache
          TrieDirtyDisabled := config.NoPruning
          TrieTimeLimit := config.TrieTimeout
          SnapshotLimit := config.SnapshotCache
          Preimages := config.Preimages
          StateHistory := config.StateHistory
          StateScheme := scheme }
      .ok
        { scheme := scheme
          recoverPruningCalled := recoverPruningCalled
          versionWritten := versionWritten
          cacheConfig := cacheConfig
          finalConfig := config
          events :=
            [NewEvent.openDatabase, NewEvent.parseStateScheme] ++
            (if recoverPruningCalled then [NewEvent.recoverPruning] else []) ++
            [NewEvent.loadChainConfig, NewEvent.createConsensusEngine,
              NewEvent.readDatabaseVersion] ++
            (if versionWritten then [NewEvent.writeDatabaseVersion] else []) ++
            [NewEvent.newBlockChain, NewEvent.markStartup] }

/-- A well-formed configuration (no explicit scheme request, version check
enabled) used to instantiate the pipeline theorems on concrete inputs. -/
def exampleConfig : Config :=
  { SyncModeValid := true
    NoPruning := false
    NoPrefetch := false
    TrieCleanCache := 154
    TrieDirtyCache := 256
    TrieTimeout := 3600
    SnapshotCache := 102
    StateHistory := 90000
    StateScheme := none
    SkipBcVersionCheck := false
    Preimages := false }

/-- A fresh store: no scheme marker, no persisted database version. -/
def exampleStore : Store :=
  { persistedScheme := none, databaseVersion := none }

/-- A configuration explicitly requesting the path scheme. -/
def pathSchemeConfig : Config :=
  { exampleConfig with StateScheme := some Scheme.path }

/-- A store whose persisted scheme marker is the hash scheme. -/
def hashMarkedStore : Store :=
  { persistedScheme := some Scheme.hash, databaseVersion := none }

/-- A store persisting database version 9. -/
def storeVersion9 : Store :=
  { persistedScheme := none, databaseVersion := some 9 }

/-- A configuration with pruning disabled and a positive dirty cache. -/
def archiveConfig : Config :=
  { exampleConfig with NoPruning := true }

/-- The result of the modelled `New` on the example inputs, with supported
database version 8. -/
def exampleResult : NewResult :=
  (New 8 exampleConfig exampleStore).toOption.getD default

/-- Node writes of one committed block: key to new value. Modelled from the
spec: the path-scheme layer tree (pathdb) is not under src/, so the layered
reader is modelled from the spec's Diff Layer and Layer Tree sections. -/
abbrev WriteSet := List (Hash × Bytes)

/-- Modelled from the spec: a linear chain of commits turns the list of
per-block write sets (oldest first) into diff layers carrying generation
ids numbered from `g` upward. -/
def chainLayers : Nat → List WriteSet → List (Nat × WriteSet)
  | _, [] => []
  | g, ws :: rest => (g, ws) :: chainLayers (g + 1) rest

/-- Modelled from the spec: `Reader(root_i)` is bound to the state after the
first `i` commits and sees exactly those diff layers, newest first; the
writes of commit number j (1-based) form generation j. -/
def Reader (chain : List WriteSet) (i : Nat) : List (Nat × WriteSet) :=
  (chainLayers 1 (chain.take i)).reverse

/-- Modelled from the spec: `Node(k)` walks the layers newest first and
returns the first value recorded for `k`, together with the generation that
wrote it. -/
def readNode : List (Nat × WriteSet) → Hash → Option (Nat × Bytes)
  | [], _ => none
  | (g, ws) :: older, k =>
    match List.lookup k ws with
    | some v => some (g, v)
    | none => readNode older k

/-- `strings.Split(str, "_")` specialised to the one-character separator of
`camel`: split at every underscore, keeping empty pieces. The result is
never empty. -/
def splitUnderscore : List Char → List (List Char)
  | [] => [[]]
  | c :: rest =>
    if c = '_' then [] :: splitUnderscore rest
    else
      match splitUnderscore rest with
      | [] => [[c]]
      | p :: ps => (c :: p) :: ps

/-- One iteration of the loop body of `camel` (src/unnamed/part_001),
`pieces[i] = string(unicode.ToUpper(rune(pieces[i][0]))) + pieces[i][1:]`:
on an empty piece both index expressions are out of range (a run-time
panic), modelled as `none`; otherwise the first character is upper-cased.
`unicode.ToUpper` is embedded as `Char.toUpper`. -/
def capitalizePiece : List Char → Option (List Char)
  | [] => none
  | c :: rest => some (c.toUpper :: rest)

/-- The loop of `camel` over the pieces after the first: every iteration
either succeeds or aborts the whole run with the out-of-range panic. -/
def capitalizeAll : List (List Char) → Option (List (List Char))
  | [] => some []
  | p :: ps =>
    match capitalizePiece p, capitalizeAll ps with
    | some q, some qs => some (q :: qs)
    | _, _ => none

/-- `camel` (src/unnamed/part_001): converts a snake cased input into a
camel cased output — split on underscores, upper-case the first character
of every piece after the first, join. The out-of-range panic on an empty
later piece is the `none` result. -/
def camel (str : List Char) : Option (List Char) :=
  match splitUnderscore str with
  | [] => some []
  | p :: ps => (capitalizeAll ps).map fun caps => (p :: caps).flatten

/-- Total capitalization of a piece, defined on nonempty pieces; used to
state what `camel` returns when no piece after the first is empty. -/
def capitalizeTotal : List Char → List Char
  | [] => []
  | c :: rest => c.toUpper :: rest

end GoRajchain

namespace GoRajchain

/-- C1: A `StateSet` consists of the four mappings `Accounts`,
`AccountsOrigin`, `Storages`, `StoragesOrigin`, and `NewStateSet` returns a
state set in which all four are initialized and empty. -/
theorem NewStateSet_all_empty :
    NewStateSet.Accounts = [] ∧
    NewStateSet.AccountsOrigin = [] ∧
    NewStateSet.Storages = [] ∧
    NewStateSet.StoragesOrigin = [] :=
  ⟨rfl, rfl, rfl, rfl⟩

/-- C8: `internal` returns nil exactly on the nil receiver, and on a non-nil
receiver builds the result solely from `AccountsOrigin` and `StoragesOrigin`;
the `Accounts` and `Storages` new-value maps never reach the path database. -/
theorem internal_nil_iff_and_origin_only (s : Option StateSet) :
    (internal s = none ↔ s = none) ∧
    (∀ set : StateSet, internal (some set) =
      some (NewStateSetWithOrigin set.AccountsOrigin set.StoragesOrigin)) := by
  constructor
  · cases s with
    | none => simp [internal]
    | some set => simp [internal]
  · intro set
    rfl

/-- Cache sanitization only redistributes the three cache budgets; the
requested scheme and the two validation flags survive it unchanged. -/
theorem sanitizeCaches_preserves (config : Config) :
    (sanitizeCaches config).SyncModeValid = config.SyncModeValid ∧
    (sanitizeCaches config).StateScheme = config.StateScheme ∧
    (sanitizeCaches config).SkipBcVersionCheck = config.SkipBcVersionCheck := by
  unfold sanitizeCaches
  split
  · split <;> exact ⟨rfl, rfl, rfl⟩
  · exact ⟨rfl, rfl, rfl⟩

/-- Membership in a conditionally empty list. -/
theorem mem_if_singleton {α : Type} (a : α) (c : Prop) [Decidable c] (l : List α) :
    (a ∈ if c then l else []) ↔ c ∧ a ∈ l := by
  split <;> simp_all

/-- C9: with `NoPruning` set and a positive dirty cache, sanitization zeroes
the dirty cache and redistributes it with exact integer arithmetic — `d*3/5`
to the clean cache and `d*2/5` to the snapshot cache when snapshots are on,
all of `d` to the clean cache otherwise — and the combined growth of the
clean and snapshot caches never exceeds `d`. -/
theorem sanitizeCaches_redistributes (config : Config)
    (hnp : config.NoPruning = true) (hd : 0 < config.TrieDirtyCache) :
    (sanitizeCaches config).TrieDirtyCache = 0 ∧
    (0 < config.SnapshotCache →
      (sanitizeCaches config).TrieCleanCache
          = config.TrieCleanCache + config.TrieDirtyCache * 3 / 5 ∧
      (sanitizeCaches config).SnapshotCache
          = config.SnapshotCache + config.TrieDirtyCache * 2 / 5) ∧
    (config.SnapshotCache = 0 →
      (sanitizeCaches config).TrieCleanCache
          = config.TrieCleanCache + config.TrieDirtyCache ∧
      (sanitizeCaches config).SnapshotCache = config.SnapshotCache) ∧
    (sanitizeCaches config).TrieCleanCache + (sanitizeCaches config).SnapshotCache
        ≤ config.TrieCleanCache + config.SnapshotCache + config.TrieDirtyCache := by
  have hsplit : config.TrieDirtyCache * 3 / 5 + config.TrieDirtyCache * 2 / 5
      ≤ config.TrieDirtyCache := by
    calc config.TrieDirtyCache * 3 / 5 + config.TrieDirtyCache * 2 / 5
        ≤ (config.TrieDirtyCache * 3 + config.TrieDirtyCache * 2) / 5 :=
          Nat.add_div_le_add_div _ _ 5
      _ = config.TrieDirtyCache := by omega
  unfold sanitizeCaches
  rw [if_pos ⟨hnp, hd⟩]
  by_cases hs : 0 < config.SnapshotCache
  · rw [if_pos hs]
    refine ⟨rfl, fun _ => ⟨rfl, rfl⟩, fun h0 => absurd h0 (by omega), ?_⟩
    show config.TrieCleanCache + config.TrieDirtyCache * 3 / 5 +
        (config.SnapshotCache + config.TrieDirtyCache * 2 / 5)
        ≤ config.TrieCleanCache + config.SnapshotCache + config.TrieDirtyCache
    omega
  · rw [if_neg hs]
    refine ⟨rfl, fun h => absurd h hs, fun _ => ⟨rfl, rfl⟩, ?_⟩
    show config.TrieCleanCache + config.TrieDirtyCache + config.SnapshotCache
        ≤ config.TrieCleanCache + config.SnapshotCache + config.TrieDirtyCache
    omega

/-- C2: construction resolves the storage scheme exactly once, before the
blockchain is built, and an explicitly requested scheme that conflicts with
the scheme already persisted on the store makes `New` fail with the
configuration error instead of opening. -/
theorem New_scheme_exclusive (supportedVersion : Nat) (config : Config) (store : Store)
    (hvalid : config.SyncModeValid = true) :
    (∀ req persisted, config.StateScheme = some req →
      store.persistedScheme = some persisted → req ≠ persisted →
      New supportedVersion config store = .error .schemeConflict) ∧
    (∀ r, New supportedVersion config store = .ok r →
      r.events.count NewEvent.parseStateScheme = 1 ∧
      List.indexOf NewEvent.parseStateScheme r.events <
        List.indexOf NewEvent.newBlockChain r.events) := by
  constructor
  · intro req persisted hreq hpers hne
    have hs := (sanitizeCaches_preserves config).2.1
    simp only [New]
    rw [if_neg (by simp [hvalid])]
    rw [hs, hreq, hpers]
    simp only [ParseStateScheme]
    rw [if_neg hne]
  · intro r h
    simp only [New] at h
    split at h
    · exact Except.noConfusion h
    · split at h
      · exact Except.noConfusion h
      · split at h
        · exact Except.noConfusion h
        · injection h with h
          subst h
          constructor
          · split <;> split <;> dsimp only <;> decide
          · split <;> split <;> dsimp only <;> decide

/-- C5: with the version check enabled, a persisted database version strictly
greater than the supported one makes `New` fail; an absent or strictly lower
persisted version is upgraded on disk and `New` proceeds. -/
theorem New_version_guard (supportedVersion : Nat) (config : Config) (store : Store)
    (scheme : Scheme)
    (hvalid : config.SyncModeValid = true)
    (hskip : config.SkipBcVersionCheck = false)
    (hparse : ParseStateScheme config.StateScheme store.persistedScheme = .ok scheme) :
    (∀ v, store.databaseVersion = some v → supportedVersion < v →
      New supportedVersion config store = .error .versionTooNew) ∧
    (store.databaseVersion = none →
      ∃ r, New supportedVersion config store = .ok r ∧ r.versionWritten = true) ∧
    (∀ v, store.databaseVersion = some v → v < supportedVersion →
      ∃ r, New supportedVersion config store = .ok r ∧ r.versionWritten = true) := by
  have hs := (sanitizeCaches_preserves config).2.1
  have hk := (sanitizeCaches_preserves config).2.2
  refine ⟨?_, ?_, ?_⟩
  · intro v hv hlt
    simp only [New, hvalid, hs, hparse, hk, hskip, hv]
    simp [hlt]
  · intro hnone
    simp only [New, hvalid, hs, hparse, hk, hskip, hnone]
    simp
  · intro v hv hlt
    have hnlt : ¬ supportedVersion < v := by omega
    simp only [New, hvalid, hs, hparse, hk, hskip, hv]
    simp [hnlt, hlt]

/-- C6: the trie-layer configuration surface is forwarded unchanged into the
assembled `CacheConfig`: its clean limit, dirty limit, time limit and state
history equal the post-sanitization config's corresponding fields, and its
scheme is the resolved scheme. -/
theorem New_cacheConfig_forwarding (supportedVersion : Nat) (config : Config)
    (store : Store) (r : NewResult)
    (h : New supportedVersion config store = .ok r) :
    r.cacheConfig.TrieCleanLimit = r.finalConfig.TrieCleanCache ∧
    r.cacheConfig.TrieDirtyLimit = r.finalConfig.TrieDirtyCache ∧
    r.cacheConfig.TrieTimeLimit = r.finalConfig.TrieTimeout ∧
    r.cacheConfig.StateHistory = r.finalConfig.StateHistory ∧
    r.cacheConfig.StateScheme = r.scheme := by
  simp only [New] at h
  split at h
  · exact Except.noConfusion h
  · split at h
    · exact Except.noConfusion h
    · split at h
      · exact Except.noConfusion h
      · injection h with h
        subst h
        exact ⟨rfl, rfl, rfl, rfl, rfl⟩

/-- C7: on every successful construction, offline state-pruning recovery was
attempted exactly when the resolved scheme is the hash scheme — both as the
recorded flag and as the presence of the step in the event trace. -/
theorem New_recoverPruning_iff_hash (supportedVersion : Nat) (config : Config)
    (store : Store) (r : NewResult)
    (h : New supportedVersion config store = .ok r) :
    (r.recoverPruningCalled = true ↔ r.scheme = Scheme.hash) ∧
    (NewEvent.recoverPruning ∈ r.events ↔ r.scheme = Scheme.hash) := by
  simp only [New] at h
  split at h
  · exact Except.noConfusion h
  · split at h
    · exact Except.noConfusion h
    · rename_i scheme heq
      split at h
      · exact Except.noConfusion h
      · injection h with h
        subst h
        constructor
        · simp
        · simp [List.mem_append, mem_if_singleton]

/-- C4: in `Stop`, `blockchain.Stop()` runs before the clean-shutdown marker
is cleared by `shutdownTracker.Stop()`, and both run before
`chainDb.Close()`. -/
theorem Stop_order_blockchain_tracker_db :
    List.indexOf StopEvent.blockchainStop StopSequence <
      List.indexOf StopEvent.shutdownTrackerStop StopSequence ∧
    List.indexOf StopEvent.shutdownTrackerStop StopSequence <
      List.indexOf StopEvent.chainDbClose StopSequence := by
  decide

/-- Witness for C9 at a concrete archive configuration. -/
theorem sanitizeCaches_redistributes_witness :
    (sanitizeCaches archiveConfig).TrieDirtyCache = 0 ∧
    (0 < archiveConfig.SnapshotCache →
      (sanitizeCaches archiveConfig).TrieCleanCache
          = archiveConfig.TrieCleanCache + archiveConfig.TrieDirtyCache * 3 / 5 ∧
      (sanitizeCaches archiveConfig).SnapshotCache
          = archiveConfig.SnapshotCache + archiveConfig.TrieDirtyCache * 2 / 5) ∧
    (archiveConfig.SnapshotCache = 0 →
      (sanitizeCaches archiveConfig).TrieCleanCache
          = archiveConfig.TrieCleanCache + archiveConfig.TrieDirtyCache ∧
      (sanitizeCaches archiveConfig).SnapshotCache = archiveConfig.SnapshotCache) ∧
    (sanitizeCaches archiveConfig).TrieCleanCache + (sanitizeCaches archiveConfig).SnapshotCache
        ≤ archiveConfig.TrieCleanCache + archiveConfig.SnapshotCache +
            archiveConfig.TrieDirtyCache :=
  sanitizeCaches_redistributes archiveConfig rfl (by decide)

/-- Witness for C2: an explicit path-scheme request against a hash-marked
store is rejected with the configuration error. -/
theorem New_scheme_exclusive_witness :
    New 8 pathSchemeConfig hashMarkedStore = .error .schemeConflict :=
  (New_scheme_exclusive 8 pathSchemeConfig hashMarkedStore rfl).1
    Scheme.path Scheme.hash rfl rfl (by decide)

/-- Witness for C5: persisted version 9 against supported version 8 refuses
to open; an absent version is upgraded and construction proceeds. -/
theorem New_version_guard_witness :
    New 8 exampleConfig storeVersion9 = .error .versionTooNew ∧
    (∃ r, New 8 exampleConfig exampleStore = .ok r ∧ r.versionWritten = true) :=
  ⟨(New_version_guard 8 exampleConfig storeVersion9 Scheme.hash rfl rfl rfl).1
      9 rfl (by decide),
    (New_version_guard 8 exampleConfig exampleStore Scheme.hash rfl rfl rfl).2.1 rfl⟩

/-- Witness for C6 on the example run of `New`. -/
theorem New_cacheConfig_forwarding_witness :
    exampleResult.cacheConfig.TrieCleanLimit = exampleResult.finalConfig.TrieCleanCache ∧
    exampleResult.cacheConfig.TrieDirtyLimit = exampleResult.finalConfig.TrieDirtyCache ∧
    exampleResult.cacheConfig.TrieTimeLimit = exampleResult.finalConfig.TrieTimeout ∧
    exampleResult.cacheConfig.StateHistory = exampleResult.finalConfig.StateHistory ∧
    exampleResult.cacheConfig.StateScheme = exampleResult.scheme :=
  New_cacheConfig_forwarding 8 exampleConfig exampleStore exampleResult (by rfl)

/-- Witness for C7 on the example run of `New`. -/
theorem New_recoverPruning_iff_hash_witness :
    (exampleResult.recoverPruningCalled = true ↔ exampleResult.scheme = Scheme.hash) ∧
    (NewEvent.recoverPruning ∈ exampleResult.events ↔ exampleResult.scheme = Scheme.hash) :=
  New_recoverPruning_iff_hash 8 exampleConfig exampleStore exampleResult (by rfl)

/-- A successful `readNode` splits its layer list at the hit: every newer
layer misses the key. -/
theorem readNode_split (L : List (Nat × WriteSet)) (k : Hash) (g : Nat) (v : Bytes)
    (h : readNode L k = some (g, v)) :
    ∃ L1 ws L2, L = L1 ++ (g, ws) :: L2 ∧ List.lookup k ws = some v ∧
      ∀ p ∈ L1, List.lookup k p.2 = (none : Option Bytes) := by
  induction L with
  | nil => simp [readNode] at h
  | cons hd tl ih =>
    obtain ⟨g0, ws0⟩ := hd
    simp only [readNode] at h
    cases hws : List.lookup k ws0 with
    | some v0 =>
      rw [hws] at h
      obtain ⟨rfl, rfl⟩ : g0 = g ∧ v0 = v := by simpa using h
      exact ⟨[], ws0, tl, rfl, hws, by simp⟩
    | none =>
      rw [hws] at h
      obtain ⟨L1, ws, L2, rfl, hlk, hmiss⟩ := ih h
      refine ⟨(g0, ws0) :: L1, ws, L2, rfl, hlk, ?_⟩
      intro p hp
      rcases List.mem_cons.mp hp with rfl | hp2
      · exact hws
      · exact hmiss p hp2

/-- A layer of `chainLayers g l` with generation `n` is the write set of
position `n - g` of `l`. -/
theorem chainLayers_mem (g n : Nat) (ws : WriteSet) (l : List WriteSet)
    (h : (n, ws) ∈ chainLayers g l) :
    g ≤ n ∧ l[n - g]? = some ws := by
  induction l generalizing g with
  | nil => simp [chainLayers] at h
  | cons w rest ih =>
    simp only [chainLayers, List.mem_cons] at h
    rcases h with heq | hmem
    · obtain ⟨rfl, rfl⟩ : n = g ∧ ws = w := by simpa using heq
      exact ⟨Nat.le_refl _, by simp⟩
    · obtain ⟨hle, hget⟩ := ih (g + 1) hmem
      refine ⟨by omega, ?_⟩
      have hsub : n - g = (n - (g + 1)) + 1 := by omega
      rw [hsub]
      simpa using hget

/-- Conversely, every position of `l` appears in `chainLayers g l` with its
generation. -/
theorem chainLayers_mem_of_get (g n : Nat) (ws : WriteSet) (l : List WriteSet)
    (hle : g ≤ n) (hget : l[n - g]? = some ws) :
    (n, ws) ∈ chainLayers g l := by
  induction l generalizing g with
  | nil => simp at hget
  | cons w rest ih =>
    rcases Nat.eq_or_lt_of_le hle with rfl | hlt
    · simp only [Nat.sub_self, List.getElem?_cons_zero, Option.some.injEq] at hget
      subst hget
      simp [chainLayers]
    · have h1 : g + 1 ≤ n := hlt
      have hsub : n - g = (n - (g + 1)) + 1 := by omega
      rw [hsub, List.getElem?_cons_succ] at hget
      have hmem := ih (g + 1) h1 hget
      simp [chainLayers, hmem]

/-- Generations increase strictly along `chainLayers g l`. -/
theorem chainLayers_pairwise (g : Nat) (l : List WriteSet) :
    List.Pairwise (fun a b : Nat × WriteSet => a.1 < b.1) (chainLayers g l) := by
  induction l generalizing g with
  | nil => exact List.Pairwise.nil
  | cons ws rest ih =>
    refine List.Pairwise.cons ?_ (ih (g + 1))
    intro p hp
    have hbound := (chainLayers_mem (g + 1) p.1 p.2 rest hp).1
    omega

/-- C3: along a single linear chain of commits, the node returned by
`Reader(root_i).Node(k)` was written at a generation `g` with `1 ≤ g ≤ i` —
never at a generation greater than `i` — and it is the latest such write:
every generation after `g` up to `i` left the key untouched. -/
theorem Reader_linear_chain (chain : List WriteSet) (i k g : Nat) (v : Bytes)
    (h : readNode (Reader chain i) k = some (g, v)) :
    1 ≤ g ∧ g ≤ i ∧
    (∃ ws, chain[g - 1]? = some ws ∧ List.lookup k ws = some v) ∧
    (∀ g2 ws2, g < g2 → g2 ≤ i → chain[g2 - 1]? = some ws2 →
      List.lookup k ws2 = none) := by
  obtain ⟨L1, ws, L2, hL, hlk, hmiss⟩ := readNode_split _ _ _ _ h
  have hmem : (g, ws) ∈ Reader chain i := by rw [hL]; simp
  have hmem2 : (g, ws) ∈ chainLayers 1 (chain.take i) := List.mem_reverse.mp hmem
  obtain ⟨hg1, hget⟩ := chainLayers_mem 1 g ws (chain.take i) hmem2
  have hgi : g - 1 < i ∧ chain[g - 1]? = some ws := by
    rw [List.getElem?_take] at hget
    split at hget
    · exact ⟨by assumption, hget⟩
    · exact absurd hget (by simp)
  refine ⟨hg1, by omega, ⟨ws, hgi.2, hlk⟩, ?_⟩
  intro g2 ws2 hgg2 hg2i hget2
  have htake : (chain.take i)[g2 - 1]? = some ws2 := by
    rw [List.getElem?_take, if_pos (by omega)]
    exact hget2
  have hmem3 : (g2, ws2) ∈ chainLayers 1 (chain.take i) :=
    chainLayers_mem_of_get 1 g2 ws2 (chain.take i) (by omega) htake
  have hmem4 : (g2, ws2) ∈ Reader chain i := List.mem_reverse.mpr hmem3
  have hpw : List.Pairwise (fun a b : Nat × WriteSet => b.1 < a.1) (Reader chain i) := by
    have := chainLayers_pairwise 1 (chain.take i)
    exact List.pairwise_reverse.mpr this
  rw [hL] at hmem4 hpw
  rcases List.mem_append.mp hmem4 with hin1 | hin2
  · exact hmiss _ hin1
  · rcases List.mem_cons.mp hin2 with heq | hin3
    · exact absurd (congrArg Prod.fst heq) (by simp; omega)
    · exfalso
      rw [List.pairwise_append] at hpw
      have h5 := hpw.2.1
      have h6 := (List.pairwise_cons.mp h5).1 _ hin3
      simp only [] at h6
      omega

/-- Witness for C3 on a two-commit chain read at generation 1. -/
theorem Reader_linear_chain_witness :
    1 ≤ 1 ∧ 1 ≤ 1 ∧
    (∃ ws, ([[(1, [10])], [(1, [20])]] : List WriteSet)[1 - 1]? = some ws ∧
      List.lookup 1 ws = some [10]) ∧
    (∀ g2 ws2, 1 < g2 → g2 ≤ 1 →
      ([[(1, [10])], [(1, [20])]] : List WriteSet)[g2 - 1]? = some ws2 →
      List.lookup 1 ws2 = none) :=
  Reader_linear_chain [[(1, [10])], [(1, [20])]] 1 1 1 [10] (by rfl)

/-- `splitUnderscore` never returns an empty list of pieces. -/
theorem splitUnderscore_ne_nil (str : List Char) : splitUnderscore str ≠ [] := by
  cases str with
  | nil => simp [splitUnderscore]
  | cons c rest =>
    simp only [splitUnderscore]
    split
    · simp
    · split <;> simp

/-- When every piece is nonempty, the loop of `camel` never panics and
upper-cases every first character. -/
theorem capitalizeAll_eq_map (ps : List (List Char)) (h : ∀ p ∈ ps, p ≠ []) :
    capitalizeAll ps = some (ps.map capitalizeTotal) := by
  induction ps with
  | nil => rfl
  | cons p rest ih =>
    cases p with
    | nil => exact absurd rfl (h [] (by simp))
    | cons c cs =>
      simp only [capitalizeAll, capitalizePiece]
      rw [ih (fun q hq => h q (List.mem_cons_of_mem _ hq))]
      rfl

/-- C10: on every input whose underscore-separated pieces after the first
are all nonempty, `camel` terminates without reaching the out-of-range
indexing and returns the pieces joined, each piece after the first with its
first character upper-cased. -/
theorem camel_eq_join_of_tail_nonempty (str : List Char)
    (h : ∀ p ∈ (splitUnderscore str).tail, p ≠ []) :
    camel str = some
      (((splitUnderscore str).headI ::
        (splitUnderscore str).tail.map capitalizeTotal).flatten) := by
  cases hsplit : splitUnderscore str with
  | nil => exact absurd hsplit (splitUnderscore_ne_nil str)
  | cons p ps =>
    rw [hsplit] at h
    simp only [camel, hsplit, List.headI, List.tail_cons]
    rw [capitalizeAll_eq_map ps h]
    rfl

/-- Witness for C10 on the input "ab_cd". -/
theorem camel_eq_join_witness :
    camel ['a', 'b', '_', 'c', 'd'] = some
      (((splitUnderscore ['a', 'b', '_', 'c', 'd']).headI ::
        (splitUnderscore ['a', 'b', '_', 'c', 'd']).tail.map capitalizeTotal).flatten) :=
  camel_eq_join_of_tail_nonempty ['a', 'b', '_', 'c', 'd'] (by decide)

end GoRajchain
